import Mathlib

/-!
Shallow embedding of the student-management dashboard repository.

Server side (`src/backend/server.js`): an Express + MongoDB CRUD API over one
`students` collection.  The collection is modelled as an insertion-ordered
list of documents together with a counter supplying fresh ObjectIds
(`DB.nextId`); `findOne` is `List.find?` (first match in natural order),
`insertOne` appends, `updateOne`/`deleteOne` act on the first matching
document.  Request bodies are modelled by `Payload`, whose fields are JSON
values abstracted as `JSVal` (absent, a string, or an opaque non-string value
carrying only its JS truthiness).  JS string operations (`trim`,
`toLowerCase`, `includes`, the validation regexes, ISO `new Date` parsing,
`ObjectId.isValid`) are given executable Lean counterparts below.

Client side (`src/unnamed/part_000`): the in-browser controller; the claim
relevant part is `filterStudents`, the pure client-side filter over the
loaded list, embedded verbatim over `ClientStudent`.
-/

namespace StudentMgmt

/-- A JSON field value as seen by the JS handlers: absent (`undefined`),
a string, or some non-string value of which only JS truthiness is kept. -/
inductive JSVal where
  | undef
  | str (s : String)
  | nonString (b : Bool)
deriving DecidableEq

/-- JS truthiness of a payload field (the `!data.x` tests). -/
def JSVal.truthy : JSVal → Bool
  | .undef => false
  | .str s => s != ""
  | .nonString b => b

/-- The JS test `typeof x === 'string'`. -/
def JSVal.isString : JSVal → Bool
  | .str _ => true
  | _ => false

/-- Underlying string of a string-valued field (junk default for the other
cases, which the source only reaches behind short-circuited type checks). -/
def JSVal.asString : JSVal → String
  | .str s => s
  | _ => ""

/-- JS `String.prototype.toLowerCase` on one character (ASCII range, as in
`Char.toLower`): codes 65-90 shift by 32, everything else is unchanged. -/
def jsLowerChar (c : Char) : Char :=
  if h : 65 ≤ c.toNat ∧ c.toNat ≤ 90 then
    Char.ofNatAux (c.toNat + 32) (Or.inl (by omega))
  else c

/-- JS `String.prototype.toLowerCase`. -/
def jsToLower (s : String) : String := ⟨s.data.map jsLowerChar⟩

/-- Strip leading and trailing whitespace from a character list. -/
def jsTrimList (l : List Char) : List Char :=
  ((l.dropWhile Char.isWhitespace).reverse.dropWhile Char.isWhitespace).reverse

/-- JS `String.prototype.trim`. -/
def jsTrim (s : String) : String := ⟨jsTrimList s.data⟩

/-- Is the first list a prefix of the second? -/
def isPrefOf : List Char → List Char → Bool
  | [], _ => true
  | _ :: _, [] => false
  | a :: as, b :: bs => a == b && isPrefOf as bs

/-- Does `needle` occur as a contiguous sublist of the second list? -/
def hasSub (needle : List Char) : List Char → Bool
  | [] => needle.isEmpty
  | c :: rest => isPrefOf needle (c :: rest) || hasSub needle rest

/-- JS `String.prototype.includes`: `jsIncludes s sub` is `s.includes(sub)`. -/
def jsIncludes (s sub : String) : Bool := hasSub sub.data s.data

/-- Character class `[^\s@]` of the email regex. -/
def isEmailAtomChar (c : Char) : Bool := !c.isWhitespace && c != '@'

/-- The server's email regex test, `/^[^\s@]+@[^\s@]+\.[^\s@]+$/.test s`:
a nonempty whitespace-free local part, one `@`, and a whitespace-free,
`@`-free tail containing a `.` that is neither its first nor last character
(so both regex groups around some dot are nonempty). -/
def emailRegexTest (s : String) : Bool :=
  let cs := s.data
  let localPart := cs.takeWhile (fun c => c != '@')
  let tail := (cs.dropWhile (fun c => c != '@')).drop 1
  !localPart.isEmpty && localPart.all (fun c => !c.isWhitespace) &&
    !tail.isEmpty && tail.all isEmailAtomChar &&
    ((tail.drop 1).dropLast).contains '.'

/-- Character class `[-\s.]` separating phone digit groups. -/
def isPhoneSep (c : Char) : Bool := c == '-' || c.isWhitespace || c == '.'

/-- Consume exactly `n` leading digits, returning the remainder. -/
def takeExactDigits (n : Nat) (cs : List Char) : Option (List Char) :=
  if (cs.take n).length == n && (cs.take n).all Char.isDigit then
    some (cs.drop n)
  else none

/-- The server's phone regex test,
`/^[\+]?[(]?[0-9]{3}[)]?[-\s\.]?[0-9]{3}[-\s\.]?[0-9]{4,6}$/.test s`.
Each optional element is consumed greedily; this is equivalent to the
backtracking regex because no optional character (`+`, `(`, `)`, separator)
can begin the mandatory digit group that follows it. -/
def phoneRegexTest (s : String) : Bool :=
  let cs0 := s.data
  let cs1 := if cs0.head? == some '+' then cs0.drop 1 else cs0
  let cs2 := if cs1.head? == some '(' then cs1.drop 1 else cs1
  match takeExactDigits 3 cs2 with
  | none => false
  | some cs3 =>
    let cs4 := if cs3.head? == some ')' then cs3.drop 1 else cs3
    let cs5 := if cs4.head?.any isPhoneSep then cs4.drop 1 else cs4
    match takeExactDigits 3 cs5 with
    | none => false
    | some cs6 =>
      let cs7 := if cs6.head?.any isPhoneSep then cs6.drop 1 else cs6
      cs7.all Char.isDigit && decide (4 ≤ cs7.length) && decide (cs7.length ≤ 6)

/-- Gregorian leap-year test. -/
def isLeapYear (y : Nat) : Bool := (y % 4 == 0 && y % 100 != 0) || y % 400 == 0

/-- Number of days in a month. -/
def daysInMonth (y m : Nat) : Nat :=
  if m == 2 then (if isLeapYear y then 29 else 28)
  else if m == 4 || m == 6 || m == 9 || m == 11 then 30
  else 31

/-- Decimal value of a digit character. -/
def digitVal (c : Char) : Nat := c.toNat - 48

/-- Modelled from the source's `new Date(string)` restricted to the ISO
`YYYY-MM-DD` calendar-date format (the format the UI submits): `some` of an
order-preserving numeric code of the date when the string is a well-formed
calendar date, `none` (an Invalid Date) otherwise. -/
def parseIsoDate (s : String) : Option Nat :=
  match s.data with
  | [y1, y2, y3, y4, h1, m1, m2, h2, d1, d2] =>
    if y1.isDigit && y2.isDigit && y3.isDigit && y4.isDigit &&
        h1 == '-' && m1.isDigit && m2.isDigit && h2 == '-' &&
        d1.isDigit && d2.isDigit then
      let y := ((digitVal y1 * 10 + digitVal y2) * 10 + digitVal y3) * 10 + digitVal y4
      let m := digitVal m1 * 10 + digitVal m2
      let d := digitVal d1 * 10 + digitVal d2
      if 1 ≤ m && m ≤ 12 && 1 ≤ d && d ≤ daysInMonth y m then
        some ((y * 100 + m) * 100 + d)
      else none
    else none
  | _ => none

/-- The source's `new Date(x)` on a payload field: `some code` for a valid
date, `none` for an Invalid Date.  Non-string payload values are modelled as
unparseable. -/
def jsParseDate (v : JSVal) : Option Nat :=
  match v with
  | .str s => parseIsoDate s
  | _ => none

/-- A request body (`req.body`) with the fields the handlers read. -/
structure Payload where
  name : JSVal
  email : JSVal
  phone : JSVal
  course : JSVal
  feeStatus : JSVal
  joinDate : JSVal
  notes : JSVal
deriving DecidableEq

/-- The `validStatuses` array of `validateStudent`. -/
def validStatuses : List String := ["Paid", "Pending", "Partial", "Scholarship"]

/-- `validateStudent` from `src/backend/server.js` lines 76-122: pushes one
error string per violated field rule onto `errors`, in source order. -/
def validateStudent (data : Payload) : List String :=
  let errors : List String := []
  let errors :=
    if !data.name.truthy || !data.name.isString ||
        decide ((jsTrim data.name.asString).length < 2) then
      errors ++ ["Name is required and must be at least 2 characters"]
    else errors
  let errors :=
    if !data.email.truthy || !data.email.isString then
      errors ++ ["Email is required"]
    else if !emailRegexTest data.email.asString then
      errors ++ ["Invalid email format"]
    else errors
  let errors :=
    if data.phone.truthy && !phoneRegexTest data.phone.asString then
      errors ++ ["Invalid phone number format"]
    else errors
  let errors :=
    if !data.course.truthy || !data.course.isString ||
        decide ((jsTrim data.course.asString).length < 2) then
      errors ++ ["Course/Service is required and must be at least 2 characters"]
    else errors
  let errors :=
    if !data.feeStatus.truthy || !(validStatuses.contains data.feeStatus.asString) then
      errors ++ ["Valid fee status is required"]
    else errors
  let errors :=
    if !data.joinDate.truthy then
      errors ++ ["Join date is required"]
    else if (jsParseDate data.joinDate).isNone then
      errors ++ ["Invalid join date format"]
    else errors
  let errors :=
    if data.notes.truthy && !data.notes.isString then
      errors ++ ["Notes must be text"]
    else errors
  errors

/-- A stored document of the `students` collection. -/
structure Student where
  id : Nat
  name : String
  email : String
  phone : String
  course : String
  feeStatus : String
  joinDate : Option Nat
  notes : String
  createdAt : Nat
  updatedAt : Nat
deriving DecidableEq

/-- The `students` collection in natural (insertion) order, plus the counter
modelling the persistence layer's supply of fresh ObjectIds. -/
structure DB where
  recs : List Student
  nextId : Nat
deriving DecidableEq

/-- Outcome of one request, covering every response the handlers produce. -/
inductive ApiResult where
  | okRecord (s : Student)
  | okDeleted
  | created (s : Student)
  | validationFailed (errors : List String)
  | invalidId
  | notFound
  | conflict
deriving DecidableEq

/-- HTTP status code of an outcome. -/
def ApiResult.statusCode : ApiResult → Nat
  | .okRecord _ => 200
  | .okDeleted => 200
  | .created _ => 201
  | .validationFailed _ => 400
  | .invalidId => 400
  | .notFound => 404
  | .conflict => 409

/-- The normalized email stored and used for uniqueness lookups:
`email.trim().toLowerCase()`. -/
def normEmail (s : String) : String := jsToLower (jsTrim s)

/-- The source's `v?.trim() || ''` on an optional text field. -/
def optTrim : JSVal → String
  | .str s => jsTrim s
  | _ => ""

/-- The document the Create handler builds (server.js lines 152-162), with
the ObjectId the insert will assign. -/
def buildStudent (body : Payload) (oid : Nat) (now : Nat) : Student :=
  { id := oid
    name := jsTrim body.name.asString
    email := normEmail body.email.asString
    phone := optTrim body.phone
    course := jsTrim body.course.asString
    feeStatus := body.feeStatus.asString
    joinDate := jsParseDate body.joinDate
    notes := optTrim body.notes
    createdAt := now
    updatedAt := now }

/-- POST `/api/records` (server.js lines 137-193): validate, build the
document, reject a duplicate normalized email with 409, else insert. -/
def createRecord (db : DB) (body : Payload) (now : Nat) : ApiResult × DB :=
  let errors := validateStudent body
  if errors.length > 0 then (.validationFailed errors, db)
  else
    let student := buildStudent body db.nextId now
    match db.recs.find? (fun r => r.email == student.email) with
    | some _ => (.conflict, db)
    | none =>
      (.created student, { recs := db.recs ++ [student], nextId := db.nextId + 1 })

/-- `ObjectId.isValid` of the MongoDB driver on a string: a 12-character
string (taken as 12 raw bytes) or 24 hex characters. -/
def isHexChar (c : Char) : Bool :=
  c.isDigit || (decide ('a' ≤ c) && decide (c ≤ 'f')) ||
    (decide ('A' ≤ c) && decide (c ≤ 'F'))

/-- String-level validity test for a persistence-layer identifier. -/
def isValidObjectId (id : String) : Bool :=
  id.length == 12 || (id.length == 24 && id.data.all isHexChar)

/-- Numeric value of a hex digit. -/
def hexVal (c : Char) : Nat :=
  if c.isDigit then c.toNat - 48
  else if decide ('a' ≤ c) && decide (c ≤ 'f') then c.toNat - 87
  else if decide ('A' ≤ c) && decide (c ≤ 'F') then c.toNat - 55
  else 0

/-- `new ObjectId(id)` for a valid id string, mapped into the numeric id
space of the model. -/
def decodeOid (id : String) : Nat :=
  if id.length == 24 then id.data.foldl (fun acc c => acc * 16 + hexVal c) 0
  else id.data.foldl (fun acc c => acc * 256 + c.toNat) 0

/-- Core of GET `/api/records/:id` after the id-format check:
`findOne({_id})`, 404 when absent. -/
def getRecordCore (db : DB) (oid : Nat) : ApiResult :=
  match db.recs.find? (fun r => r.id == oid) with
  | some s => .okRecord s
  | none => .notFound

/-- GET `/api/records/:id` (server.js lines 240-273). -/
def getRecord (db : DB) (id : String) : ApiResult :=
  if !isValidObjectId id then .invalidId
  else getRecordCore db (decodeOid id)

/-- The `$set` document of the Update handler (server.js lines 299-308):
every editable field re-normalized, `updatedAt` bumped; `_id` and
`createdAt` are not listed, so `$set` leaves them untouched. -/
def applyUpdate (body : Payload) (now : Nat) (r : Student) : Student :=
  { r with
    name := jsTrim body.name.asString
    email := normEmail body.email.asString
    phone := optTrim body.phone
    course := jsTrim body.course.asString
    feeStatus := body.feeStatus.asString
    joinDate := jsParseDate body.joinDate
    notes := optTrim body.notes
    updatedAt := now }

/-- `updateOne({_id: oid}, ...)`: rewrite the first document with this id. -/
def updateFirst (oid : Nat) (f : Student → Student) : List Student → List Student
  | [] => []
  | r :: rest => if r.id == oid then f r :: rest else r :: updateFirst oid f rest

/-- Core of PUT `/api/records/:id` after the id-format check: validate the
body, check email uniqueness excluding the updated id, `updateOne`, 404 when
nothing matched, else return the re-fetched document. -/
def updateRecordCore (db : DB) (oid : Nat) (body : Payload) (now : Nat) :
    ApiResult × DB :=
  let errors := validateStudent body
  if errors.length > 0 then (.validationFailed errors, db)
  else
    let newEmail := normEmail body.email.asString
    match db.recs.find? (fun r => r.email == newEmail && r.id != oid) with
    | some _ => (.conflict, db)
    | none =>
      let matched := db.recs.any (fun r => r.id == oid)
      let recs2 := updateFirst oid (applyUpdate body now) db.recs
      if !matched then (.notFound, { db with recs := recs2 })
      else
        match recs2.find? (fun r => r.id == oid) with
        | some s => (.okRecord s, { db with recs := recs2 })
        | none => (.notFound, { db with recs := recs2 })

/-- PUT `/api/records/:id` (server.js lines 276-351). -/
def updateRecord (db : DB) (id : String) (body : Payload) (now : Nat) :
    ApiResult × DB :=
  if !isValidObjectId id then (.invalidId, db)
  else updateRecordCore db (decodeOid id) body now

/-- `deleteOne({_id: oid})`: remove the first document with this id. -/
def removeFirst (oid : Nat) : List Student → List Student
  | [] => []
  | r :: rest => if r.id == oid then rest else r :: removeFirst oid rest

/-- Core of DELETE `/api/records/:id` after the id-format check. -/
def deleteRecordCore (db : DB) (oid : Nat) : ApiResult × DB :=
  if db.recs.any (fun r => r.id == oid) then
    (.okDeleted, { db with recs := removeFirst oid db.recs })
  else (.notFound, db)

/-- DELETE `/api/records/:id` (server.js lines 354-387). -/
def deleteRecord (db : DB) (id : String) : ApiResult × DB :=
  if !isValidObjectId id then (.invalidId, db)
  else deleteRecordCore db (decodeOid id)

/-- Case-insensitive substring match: models the `$regex`/`'i'` clauses of
the List filter for search strings without regex metacharacters. -/
def ciContains (field q : String) : Bool :=
  jsIncludes (jsToLower field) (jsToLower q)

/-- The MongoDB query document built in server.js lines 201-213: a top-level
`feeStatus` equality (when `status` is truthy) conjoined with the `$or` of
the three regex clauses (when `search` is truthy).  Absent and empty query
parameters are both JS-falsy, so both leave their clause out. -/
def matchesFilter (search status : Option String) (r : Student) : Bool :=
  (match status with
   | none => true
   | some st => if st == "" then true else r.feeStatus == st) &&
  (match search with
   | none => true
   | some q =>
     if q == "" then true
     else ciContains r.name q || ciContains r.email q || ciContains r.course q)

/-- Comparison on one sortable document field, used by the `$sort` stage. -/
def fieldLE (f : String) (a b : Student) : Bool :=
  if f == "name" then decide (a.name ≤ b.name)
  else if f == "email" then decide (a.email ≤ b.email)
  else if f == "phone" then decide (a.phone ≤ b.phone)
  else if f == "course" then decide (a.course ≤ b.course)
  else if f == "feeStatus" then decide (a.feeStatus ≤ b.feeStatus)
  else if f == "joinDate" then
    match a.joinDate, b.joinDate with
    | none, _ => true
    | some _, none => false
    | some x, some y => x ≤ y
  else if f == "createdAt" then a.createdAt ≤ b.createdAt
  else if f == "updatedAt" then a.updatedAt ≤ b.updatedAt
  else true

/-- GET `/api/records` (server.js lines 196-237): filter, sort by `sortBy`
in `sortOrder` (`'desc'` means descending, anything else ascending), return
`(count, data)`. -/
def listRecords (db : DB) (search status : Option String)
    (sortBy sortOrder : String) : Nat × List Student :=
  let students := (db.recs.filter (matchesFilter search status)).mergeSort
    (fun a b => if sortOrder == "desc" then fieldLE sortBy b a else fieldLE sortBy a b)
  (students.length, students)

/-- A record as the browser sees it after JSON decoding. -/
structure ClientStudent where
  sid : String
  name : String
  email : String
  phone : String
  course : String
  feeStatus : String
  joinDate : String
  notes : String
deriving DecidableEq

/-- `filterStudents` from `src/unnamed/part_000` lines 396-413, with the two
input-element values passed explicitly: lower-case and trim the search box,
keep a student when the search matches (or is empty) and the status matches
(or is empty). -/
def filterStudents (currentStudents : List ClientStudent)
    (searchValue statusValue : String) : List ClientStudent :=
  let searchTerm := jsTrim (jsToLower searchValue)
  currentStudents.filter (fun student =>
    (searchTerm == "" ||
      jsIncludes (jsToLower student.name) searchTerm ||
      jsIncludes (jsToLower student.email) searchTerm ||
      jsIncludes (jsToLower student.course) searchTerm) &&
    (statusValue == "" || student.feeStatus == statusValue))

/-- The List filter as the specification words it (for comparison with the
implementation): the OR of the status predicate and the search predicate. -/
def specOrFilter (search status : String) (r : Student) : Bool :=
  r.feeStatus == status ||
    ciContains r.name search || ciContains r.email search || ciContains r.course search

/-- Two strings differ only in letter case. -/
def caseVariant (e1 e2 : String) : Prop := jsToLower e1 = jsToLower e2

instance (e1 e2 : String) : Decidable (caseVariant e1 e2) :=
  inferInstanceAs (Decidable (jsToLower e1 = jsToLower e2))

/-! Per-field pieces of `validateStudent`, each depending only on its own
field, used to state that the function collects every violation. -/

/-- Errors contributed by the `name` block of `validateStudent`. -/
def nameErrors (v : JSVal) : List String :=
  if !v.truthy || !v.isString || decide ((jsTrim v.asString).length < 2) then
    ["Name is required and must be at least 2 characters"]
  else []

/-- Errors contributed by the `email` block of `validateStudent`. -/
def emailErrors (v : JSVal) : List String :=
  if !v.truthy || !v.isString then ["Email is required"]
  else if !emailRegexTest v.asString then ["Invalid email format"]
  else []

/-- Errors contributed by the `phone` block of `validateStudent`. -/
def phoneErrors (v : JSVal) : List String :=
  if v.truthy && !phoneRegexTest v.asString then ["Invalid phone number format"]
  else []

/-- Errors contributed by the `course` block of `validateStudent`. -/
def courseErrors (v : JSVal) : List String :=
  if !v.truthy || !v.isString || decide ((jsTrim v.asString).length < 2) then
    ["Course/Service is required and must be at least 2 characters"]
  else []

/-- Errors contributed by the `feeStatus` block of `validateStudent`. -/
def feeStatusErrors (v : JSVal) : List String :=
  if !v.truthy || !(validStatuses.contains v.asString) then
    ["Valid fee status is required"]
  else []

/-- Errors contributed by the `joinDate` block of `validateStudent`. -/
def joinDateErrors (v : JSVal) : List String :=
  if !v.truthy then ["Join date is required"]
  else if (jsParseDate v).isNone then ["Invalid join date format"]
  else []

/-- Errors contributed by the `notes` block of `validateStudent`. -/
def notesErrors (v : JSVal) : List String :=
  if v.truthy && !v.isString then ["Notes must be text"] else []

/-! The field rules as the specification words them (section 4.1), for the
`empty list exactly when every rule holds` direction. -/

/-- Rule: name is a string of trimmed length at least 2. -/
def nameRule (v : JSVal) : Prop := v.isString = true ∧ 2 ≤ (jsTrim v.asString).length

/-- Rule: email is a string matching the email pattern. -/
def emailRule (v : JSVal) : Prop := v.isString = true ∧ emailRegexTest v.asString = true

/-- Rule: phone, when provided, matches the phone pattern. -/
def phoneRule (v : JSVal) : Prop := v.truthy = true → phoneRegexTest v.asString = true

/-- Rule: course is a string of trimmed length at least 2. -/
def courseRule (v : JSVal) : Prop := v.isString = true ∧ 2 ≤ (jsTrim v.asString).length

/-- Rule: feeStatus is one of the four enumerated values. -/
def feeStatusRule (v : JSVal) : Prop := v.isString = true ∧ v.asString ∈ validStatuses

/-- Rule: joinDate parses as a valid calendar date. -/
def joinDateRule (v : JSVal) : Prop := (jsParseDate v).isSome = true

/-- Rule: notes, when provided, is text. -/
def notesRule (v : JSVal) : Prop := v.truthy = true → v.isString = true

/-! Concrete data used by witnesses and counterexamples. -/

/-- A stored record with fee status `"Paid"`. -/
def cexStudent : Student :=
  ⟨0, "alice", "alice@x.com", "", "CS", "Paid", some 20240110, "", 0, 0⟩

/-- A one-record collection state. -/
def cexDB : DB := ⟨[cexStudent], 1⟩

/-- A payload that passes `validateStudent`. -/
def wPayload : Payload :=
  ⟨.str "Jo Lee", .str "jo@x.com", .undef, .str "CS101", .str "Pending",
    .str "2024-01-10", .undef⟩

/-- A valid payload whose normalized email collides with `cexStudent`. -/
def wPayloadAlice : Payload :=
  ⟨.str "Alice B", .str "Alice@X.Com", .undef, .str "CS", .str "Paid",
    .str "2024-01-10", .undef⟩

/-- The document produced by updating `cexStudent` with `wPayload` at time 7. -/
def wStudentUpdated : Student :=
  ⟨0, "Jo Lee", "jo@x.com", "", "CS101", "Pending", some 20240110, "", 0, 7⟩

/-! ### Helper lemmas -/

theorem char_eq_iff_toNat {c d : Char} : c = d ↔ c.toNat = d.toNat := by
  rw [Char.ext_iff, UInt32.ext_iff]
  exact Iff.rfl

theorem toNat_ofNatAux (n : Nat) (h : n.isValidChar) :
    (Char.ofNatAux n h).toNat = n := rfl

theorem toNat_jsLowerChar (c : Char) :
    (jsLowerChar c).toNat =
      if 65 ≤ c.toNat ∧ c.toNat ≤ 90 then c.toNat + 32 else c.toNat := by
  unfold jsLowerChar
  split
  · exact toNat_ofNatAux _ _
  · rfl

theorem isWhitespace_iff (c : Char) :
    c.isWhitespace = true ↔
      (c.toNat = 32 ∨ c.toNat = 9 ∨ c.toNat = 13 ∨ c.toNat = 10) := by
  have h32 : (' ' : Char).toNat = 32 := rfl
  have h9 : ('\t' : Char).toNat = 9 := rfl
  have h13 : ('\x0d' : Char).toNat = 13 := rfl
  have h10 : ('\n' : Char).toNat = 10 := rfl
  simp only [Char.isWhitespace, Bool.or_eq_true, decide_eq_true_eq,
    char_eq_iff_toNat, h32, h9, h13, h10]
  tauto

theorem isWhitespace_jsLowerChar (c : Char) :
    (jsLowerChar c).isWhitespace = c.isWhitespace := by
  rw [Bool.eq_iff_iff, isWhitespace_iff, isWhitespace_iff, toNat_jsLowerChar]
  split
  · omega
  · exact Iff.rfl

theorem dropWhile_ws_map_lower (l : List Char) :
    (l.map jsLowerChar).dropWhile Char.isWhitespace =
      (l.dropWhile Char.isWhitespace).map jsLowerChar := by
  induction l with
  | nil => rfl
  | cons c t ih =>
    by_cases h : c.isWhitespace = true
    · simp [List.dropWhile_cons, isWhitespace_jsLowerChar, h, ih]
    · simp [List.dropWhile_cons, isWhitespace_jsLowerChar, h]

theorem jsTrimList_map_lower (l : List Char) :
    jsTrimList (l.map jsLowerChar) = (jsTrimList l).map jsLowerChar := by
  unfold jsTrimList
  rw [dropWhile_ws_map_lower, ← List.map_reverse, dropWhile_ws_map_lower,
    ← List.map_reverse]

theorem jsToLower_jsTrim (s : String) :
    jsToLower (jsTrim s) = jsTrim (jsToLower s) := by
  unfold jsToLower jsTrim
  exact congrArg String.mk (jsTrimList_map_lower s.data).symm

theorem normEmail_congr {e1 e2 : String} (h : caseVariant e1 e2) :
    normEmail e1 = normEmail e2 := by
  unfold normEmail
  rw [jsToLower_jsTrim, jsToLower_jsTrim, h]

theorem ite_append_one (c : Prop) [Decidable c] (a x : List String) :
    (if c then a ++ x else a) = a ++ (if c then x else []) := by
  split <;> simp

theorem ite_append_two (c d : Prop) [Decidable c] [Decidable d]
    (a x y : List String) :
    (if c then a ++ x else if d then a ++ y else a) =
      a ++ (if c then x else if d then y else []) := by
  split
  · simp
  · split <;> simp

theorem validateStudent_eq_concat (data : Payload) :
    validateStudent data =
      nameErrors data.name ++ emailErrors data.email ++ phoneErrors data.phone ++
        courseErrors data.course ++ feeStatusErrors data.feeStatus ++
        joinDateErrors data.joinDate ++ notesErrors data.notes := by
  unfold validateStudent nameErrors emailErrors phoneErrors courseErrors
    feeStatusErrors joinDateErrors notesErrors
  dsimp only
  rw [ite_append_one, ite_append_two, ite_append_one, ite_append_one,
    ite_append_one, ite_append_two, ite_append_one]
  simp [List.append_assoc]

theorem nameErrors_nil_iff (v : JSVal) : nameErrors v = [] ↔ nameRule v := by
  cases v with
  | undef => simp [nameErrors, nameRule, JSVal.truthy, JSVal.isString, JSVal.asString]
  | nonString b => simp [nameErrors, nameRule, JSVal.truthy, JSVal.isString, JSVal.asString]
  | str s =>
    simp [nameErrors, nameRule, JSVal.truthy, JSVal.isString, JSVal.asString]
    by_cases hs : s = ""
    · subst hs; simp [jsTrim, jsTrimList]
    · simp [hs]

theorem emailErrors_nil_iff (v : JSVal) : emailErrors v = [] ↔ emailRule v := by
  cases v with
  | undef => simp [emailErrors, emailRule, JSVal.truthy, JSVal.isString, JSVal.asString]
  | nonString b => simp [emailErrors, emailRule, JSVal.truthy, JSVal.isString, JSVal.asString]
  | str s =>
    simp [emailErrors, emailRule, JSVal.truthy, JSVal.isString, JSVal.asString]
    by_cases hs : s = ""
    · subst hs; simp [emailRegexTest]
    · simp [hs]

theorem phoneErrors_nil_iff (v : JSVal) : phoneErrors v = [] ↔ phoneRule v := by
  cases v with
  | undef => simp [phoneErrors, phoneRule, JSVal.truthy, JSVal.isString, JSVal.asString]
  | nonString b => cases b <;>
      simp [phoneErrors, phoneRule, JSVal.truthy, JSVal.isString, JSVal.asString]
  | str s =>
    simp [phoneErrors, phoneRule, JSVal.truthy, JSVal.isString, JSVal.asString]

theorem courseErrors_nil_iff (v : JSVal) : courseErrors v = [] ↔ courseRule v := by
  cases v with
  | undef => simp [courseErrors, courseRule, JSVal.truthy, JSVal.isString, JSVal.asString]
  | nonString b => simp [courseErrors, courseRule, JSVal.truthy, JSVal.isString, JSVal.asString]
  | str s =>
    simp [courseErrors, courseRule, JSVal.truthy, JSVal.isString, JSVal.asString]
    by_cases hs : s = ""
    · subst hs; simp [jsTrim, jsTrimList]
    · simp [hs]

theorem feeStatusErrors_nil_iff (v : JSVal) :
    feeStatusErrors v = [] ↔ feeStatusRule v := by
  cases v with
  | undef => simp [feeStatusErrors, feeStatusRule, JSVal.truthy, JSVal.isString, JSVal.asString]
  | nonString b => cases b <;>
      simp [feeStatusErrors, feeStatusRule, JSVal.truthy, JSVal.isString, JSVal.asString,
        validStatuses]
  | str s =>
    simp [feeStatusErrors, feeStatusRule, JSVal.truthy, JSVal.isString, JSVal.asString]
    by_cases hs : s = ""
    · subst hs; simp [validStatuses]
    · simp [hs]

theorem joinDateErrors_nil_iff (v : JSVal) :
    joinDateErrors v = [] ↔ joinDateRule v := by
  cases v with
  | undef => simp [joinDateErrors, joinDateRule, JSVal.truthy, jsParseDate]
  | nonString b => cases b <;> simp [joinDateErrors, joinDateRule, JSVal.truthy, jsParseDate]
  | str s =>
    simp [joinDateErrors, joinDateRule, JSVal.truthy, jsParseDate]
    by_cases hs : s = ""
    · subst hs; simp [parseIsoDate]
    · simp [hs, Option.isNone_iff_eq_none, Option.isSome_iff_ne_none]

theorem notesErrors_nil_iff (v : JSVal) : notesErrors v = [] ↔ notesRule v := by
  cases v with
  | undef => simp [notesErrors, notesRule, JSVal.truthy, JSVal.isString]
  | nonString b => cases b <;> simp [notesErrors, notesRule, JSVal.truthy, JSVal.isString]
  | str s => simp [notesErrors, notesRule, JSVal.truthy, JSVal.isString]

theorem applyUpdate_id (body : Payload) (now : Nat) (s : Student) :
    (applyUpdate body now s).id = s.id := rfl

theorem find?_updateFirst (oid : Nat) (f : Student → Student)
    (hf : ∀ s, (f s).id = s.id) (l : List Student) (r : Student)
    (h : l.find? (fun x => x.id == oid) = some r) :
    (updateFirst oid f l).find? (fun x => x.id == oid) = some (f r) := by
  induction l with
  | nil => simp at h
  | cons a rest ih =>
    by_cases ha : (a.id == oid) = true
    · simp only [List.find?, ha] at h
      injection h with h
      subst h
      simp only [updateFirst, ha, if_true, List.find?, hf, beq_self_eq_true]
    · simp only [List.find?, ha] at h
      simp only [updateFirst, ha, Bool.false_eq_true, if_false, List.find?]
      exact ih h

theorem updateFirst_of_absent (oid : Nat) (f : Student → Student)
    (l : List Student) (h : ∀ x ∈ l, x.id ≠ oid) : updateFirst oid f l = l := by
  induction l with
  | nil => rfl
  | cons a rest ih =>
    have ha : (a.id == oid) = false := by
      simp [h a (List.mem_cons_self a rest)]
    simp only [updateFirst, ha, Bool.false_eq_true, if_false]
    rw [ih (fun x hx => h x (List.mem_cons_of_mem a hx))]

/-! ### Claim theorems -/

/-- Claim C1 (counterexample): the List filter is not the OR of the status
predicate and the search predicate.  With `search = "zzz"` and
`status = "Paid"`, the stored record satisfies the claimed OR predicate
(its feeStatus is exactly "Paid") yet the endpoint does not return it. -/
theorem claim1_list_filter_not_or :
    specOrFilter "zzz" "Paid" cexStudent = true ∧
      cexStudent ∉ (listRecords cexDB (some "zzz") (some "Paid") "joinDate" "desc").2 := by
  constructor
  · decide
  · intro hmem
    simp only [listRecords, List.mem_mergeSort, List.mem_filter] at hmem
    exact absurd hmem.2 (by decide)

/-- Claim C1 (amended): when both a nonempty search term and a nonempty
status filter are supplied, the List operation returns a record exactly when
its feeStatus equals the status AND its name, email, or course contains the
search term case-insensitively (the two predicates are conjoined, not
OR'd). -/
theorem claim1_list_filter_is_and (db : DB) (q st sortBy sortOrder : String)
    (hq : q ≠ "") (hst : st ≠ "") (r : Student) :
    r ∈ (listRecords db (some q) (some st) sortBy sortOrder).2 ↔
      r ∈ db.recs ∧ r.feeStatus = st ∧
        (ciContains r.name q = true ∨ ciContains r.email q = true ∨
          ciContains r.course q = true) := by
  simp only [listRecords, List.mem_mergeSort, List.mem_filter, matchesFilter]
  simp [hq, hst, and_assoc]
  tauto

/-- Witness for C1's amended theorem at a concrete state and query. -/
theorem claim1_list_filter_is_and_witness :
    cexStudent ∈ (listRecords cexDB (some "ali") (some "Paid") "joinDate" "desc").2 :=
  (claim1_list_filter_is_and cexDB "ali" "Paid" "joinDate" "desc" (by decide)
    (by decide) cexStudent).mpr ⟨by decide, by decide, Or.inl (by decide)⟩

/-- Claim C2: `validateStudent` is the ordered concatenation of the seven
independent per-field checks; it returns `[]` exactly when every field rule
of the specification holds; and on a nonempty error list both Create and
Update return exactly that list as a validation failure, leaving the
collection unchanged. -/
theorem claim2_validateStudent_collects_all (data : Payload) :
    (validateStudent data =
      nameErrors data.name ++ emailErrors data.email ++ phoneErrors data.phone ++
        courseErrors data.course ++ feeStatusErrors data.feeStatus ++
        joinDateErrors data.joinDate ++ notesErrors data.notes) ∧
    (validateStudent data = [] ↔
      nameRule data.name ∧ emailRule data.email ∧ phoneRule data.phone ∧
        courseRule data.course ∧ feeStatusRule data.feeStatus ∧
        joinDateRule data.joinDate ∧ notesRule data.notes) ∧
    (validateStudent data ≠ [] →
      ∀ (db : DB) (now oid : Nat),
        createRecord db data now = (.validationFailed (validateStudent data), db) ∧
        updateRecordCore db oid data now =
          (.validationFailed (validateStudent data), db)) := by
  refine ⟨validateStudent_eq_concat data, ?_, ?_⟩
  · rw [validateStudent_eq_concat]
    simp [nameErrors_nil_iff, emailErrors_nil_iff, phoneErrors_nil_iff,
      courseErrors_nil_iff, feeStatusErrors_nil_iff, joinDateErrors_nil_iff,
      notesErrors_nil_iff]
  · intro hne db now oid
    have hlen : 0 < (validateStudent data).length := List.length_pos.mpr hne
    constructor
    · simp [createRecord, hlen]
    · simp [updateRecordCore, hlen]

/-- Witness for C2 at a payload violating five rules at once. -/
theorem claim2_validateStudent_collects_all_witness :
    createRecord ⟨[], 0⟩ ⟨.undef, .undef, .undef, .undef, .undef, .undef, .undef⟩ 0 =
      (.validationFailed
        (validateStudent ⟨.undef, .undef, .undef, .undef, .undef, .undef, .undef⟩),
        ⟨[], 0⟩) :=
  ((claim2_validateStudent_collects_all
      ⟨.undef, .undef, .undef, .undef, .undef, .undef, .undef⟩).2.2
    (by decide) ⟨[], 0⟩ 0 0).1

/-- Claim C4: creating a record whose normalized email is already stored
fails with Conflict and returns the collection state unchanged: no record is
altered and nothing is inserted. -/
theorem claim4_create_duplicate_conflict (db : DB) (p : Payload) (now : Nat)
    (hval : validateStudent p = [])
    (r0 : Student) (hr0 : r0 ∈ db.recs)
    (hemail : r0.email = normEmail p.email.asString) :
    createRecord db p now = (.conflict, db) := by
  have hsome : (db.recs.find?
      (fun r => r.email == (buildStudent p db.nextId now).email)).isSome := by
    rw [List.find?_isSome]
    exact ⟨r0, hr0, by simp [buildStudent, hemail]⟩
  obtain ⟨x, hx⟩ := Option.isSome_iff_exists.mp hsome
  simp [createRecord, hval, hx]

/-- Witness for C4: inserting "alice@x.com" twice. -/
theorem claim4_create_duplicate_conflict_witness :
    createRecord cexDB wPayloadAlice 3 = (.conflict, cexDB) :=
  claim4_create_duplicate_conflict cexDB wPayloadAlice 3 (by decide) cexStudent
    (by decide) (by decide)

/-- Claim C6: a string that is not a well-formed ObjectId makes Get, Update
and Delete all answer the 400 invalid-id outcome — never 404 — whatever the
collection state. -/
theorem claim6_malformed_id_bad_request (db : DB) (id : String) (body : Payload)
    (now : Nat) (h : isValidObjectId id = false) :
    getRecord db id = .invalidId ∧
    updateRecord db id body now = (.invalidId, db) ∧
    deleteRecord db id = (.invalidId, db) ∧
    ApiResult.invalidId.statusCode = 400 ∧ ApiResult.invalidId ≠ .notFound := by
  refine ⟨?_, ?_, ?_, rfl, by decide⟩ <;>
    simp [getRecord, updateRecord, deleteRecord, h]

/-- Witness for C6 at the id `"not-an-id"`. -/
theorem claim6_malformed_id_bad_request_witness :
    getRecord cexDB "not-an-id" = .invalidId ∧
    updateRecord cexDB "not-an-id" wPayload 2 = (.invalidId, cexDB) ∧
    deleteRecord cexDB "not-an-id" = (.invalidId, cexDB) ∧
    ApiResult.invalidId.statusCode = 400 ∧ ApiResult.invalidId ≠ .notFound :=
  claim6_malformed_id_bad_request cexDB "not-an-id" wPayload 2 (by decide)

/-- Claim C9: client-side filtering is a pure function of the loaded list
and the two inputs: a record is kept exactly when the lower-cased trimmed
search term is empty or case-insensitively contained in its name, email or
course, and the status filter is empty or exactly equal to its feeStatus. -/
theorem claim9_filterStudents_pure (students : List ClientStudent)
    (searchValue statusValue : String) (r : ClientStudent) :
    r ∈ filterStudents students searchValue statusValue ↔
      r ∈ students ∧
        (jsTrim (jsToLower searchValue) = "" ∨
          jsIncludes (jsToLower r.name) (jsTrim (jsToLower searchValue)) = true ∨
          jsIncludes (jsToLower r.email) (jsTrim (jsToLower searchValue)) = true ∨
          jsIncludes (jsToLower r.course) (jsTrim (jsToLower searchValue)) = true) ∧
        (statusValue = "" ∨ r.feeStatus = statusValue) := by
  simp [filterStudents, List.mem_filter, and_assoc]
  tauto

/-- Claim C3: for emails that differ only in letter case, the normalized
(trimmed, lower-cased) forms coincide, and consequently Create and Update
behave identically on payloads differing only in the case of the email:
the two emails are one identity for uniqueness purposes. -/
theorem claim3_email_case_insensitive (e1 e2 : String) (h : caseVariant e1 e2) :
    normEmail e1 = normEmail e2 ∧
    ∀ (p : Payload) (db : DB) (now oid : Nat),
      validateStudent { p with email := .str e1 } = [] →
      validateStudent { p with email := .str e2 } = [] →
      createRecord db { p with email := .str e1 } now =
        createRecord db { p with email := .str e2 } now ∧
      updateRecordCore db oid { p with email := .str e1 } now =
        updateRecordCore db oid { p with email := .str e2 } now := by
  have hnorm := normEmail_congr h
  refine ⟨hnorm, ?_⟩
  intro p db now oid h1 h2
  have hbuild : ∀ oid2 now2,
      buildStudent { p with email := .str e1 } oid2 now2 =
        buildStudent { p with email := .str e2 } oid2 now2 := by
    intro oid2 now2
    simp [buildStudent, JSVal.asString, hnorm]
  constructor
  · simp only [createRecord, h1, h2]
    rw [hbuild]
  · simp only [updateRecordCore, h1, h2]
    have happ : applyUpdate { p with email := .str e1 } now =
        applyUpdate { p with email := .str e2 } now := by
      funext s
      simp [applyUpdate, JSVal.asString, hnorm]
    simp [JSVal.asString, hnorm, happ]

/-- Witness for C3: `"JO@X.COM"` and `"jo@x.com"` give identical Create
outcomes. -/
theorem claim3_email_case_insensitive_witness :
    createRecord cexDB { wPayload with email := .str "JO@X.COM" } 4 =
      createRecord cexDB { wPayload with email := .str "jo@x.com" } 4 :=
  ((claim3_email_case_insensitive "JO@X.COM" "jo@x.com" (by decide)).2
    wPayload cexDB 4 0 (by decide) (by decide)).1

/-- Claim C5: updating a record with a valid payload carrying its own stored
email does not raise Conflict — the uniqueness probe excludes the updated id
— and the update answers 200. -/
theorem claim5_update_own_email_ok (db : DB) (r : Student) (p : Payload) (now : Nat)
    (hr : r ∈ db.recs)
    (hval : validateStudent p = [])
    (hemail : normEmail p.email.asString = r.email)
    (huniq : ∀ r2 ∈ db.recs, r2.email = r.email → r2.id = r.id) :
    (updateRecordCore db r.id p now).1 ≠ .conflict ∧
    (updateRecordCore db r.id p now).1.statusCode = 200 := by
  have hnone : db.recs.find?
      (fun r2 => r2.email == normEmail p.email.asString && r2.id != r.id) = none := by
    rw [List.find?_eq_none]
    intro x hx hpx
    rw [Bool.and_eq_true, beq_iff_eq, bne_iff_ne] at hpx
    exact hpx.2 (huniq x hx (hpx.1.trans hemail))
  have hfind : (db.recs.find? (fun x => x.id == r.id)).isSome = true :=
    List.find?_isSome.mpr ⟨r, hr, by simp⟩
  obtain ⟨r1, hr1⟩ := Option.isSome_iff_exists.mp hfind
  have hmatched : db.recs.any (fun x => x.id == r.id) = true :=
    List.any_eq_true.mpr ⟨r, hr, by simp⟩
  have hfind2 := find?_updateFirst r.id (applyUpdate p now)
    (applyUpdate_id p now) db.recs r1 hr1
  simp only [updateRecordCore, hval, hnone, hmatched, hfind2]
  simp [ApiResult.statusCode]

/-- Witness for C5: re-submitting `cexStudent`'s email (in different case)
to Update on `cexStudent` is not a Conflict and succeeds. -/
theorem claim5_update_own_email_ok_witness :
    (updateRecordCore cexDB cexStudent.id wPayloadAlice 6).1 ≠ .conflict ∧
    (updateRecordCore cexDB cexStudent.id wPayloadAlice 6).1.statusCode = 200 :=
  claim5_update_own_email_ok cexDB cexStudent wPayloadAlice 6 (by decide)
    (by decide) (by decide) (by decide)

/-- Claim C7: a successful Update rewrites exactly the editable fields to
their normalized payload values and stamps `updatedAt` with the current
time, while the record's `id` and `createdAt` keep the values they had
before the update. -/
theorem claim7_update_frame (db : DB) (oid : Nat) (p : Payload) (now : Nat)
    (s r : Student)
    (hfound : db.recs.find? (fun x => x.id == oid) = some r)
    (h : (updateRecordCore db oid p now).1 = .okRecord s) :
    s.id = r.id ∧ s.createdAt = r.createdAt ∧ s.updatedAt = now ∧
    s.name = jsTrim p.name.asString ∧ s.email = normEmail p.email.asString ∧
    s.phone = optTrim p.phone ∧ s.course = jsTrim p.course.asString ∧
    s.feeStatus = p.feeStatus.asString ∧ s.joinDate = jsParseDate p.joinDate ∧
    s.notes = optTrim p.notes := by
  have hfind2 := find?_updateFirst oid (applyUpdate p now)
    (applyUpdate_id p now) db.recs r hfound
  have hmatched : db.recs.any (fun x => x.id == oid) = true := by
    rw [List.any_eq_true]
    have hp := List.find?_some hfound
    exact ⟨r, List.mem_of_find?_eq_some hfound, hp⟩
  by_cases hlen : (validateStudent p).length > 0
  · simp [updateRecordCore, hlen] at h
  · simp only [updateRecordCore, hlen, if_false] at h
    cases hdup : db.recs.find?
        (fun r2 => r2.email == normEmail p.email.asString && r2.id != oid) with
    | some x => simp [hdup] at h
    | none =>
      simp only [hdup, hmatched, Bool.not_true, Bool.false_eq_true, if_false,
        hfind2] at h
      injection h with h
      subst h
      simp [applyUpdate]

/-- Witness for C7 at a concrete successful update of `cexStudent`. -/
theorem claim7_update_frame_witness :
    wStudentUpdated.id = cexStudent.id ∧
    wStudentUpdated.createdAt = cexStudent.createdAt ∧
    wStudentUpdated.updatedAt = 7 ∧
    wStudentUpdated.name = jsTrim wPayload.name.asString ∧
    wStudentUpdated.email = normEmail wPayload.email.asString ∧
    wStudentUpdated.phone = optTrim wPayload.phone ∧
    wStudentUpdated.course = jsTrim wPayload.course.asString ∧
    wStudentUpdated.feeStatus = wPayload.feeStatus.asString ∧
    wStudentUpdated.joinDate = jsParseDate wPayload.joinDate ∧
    wStudentUpdated.notes = optTrim wPayload.notes :=
  claim7_update_frame cexDB 0 wPayload 7 wStudentUpdated cexStudent
    (by decide) (by decide)

/-- Claim C8: on a well-formed state (fresh next id, email not yet taken),
Create inserts the normalized document and immediately Get-ting the assigned
id returns exactly that document, whose fields are the trimmed inputs, the
trimmed lower-cased email, empty defaults for absent phone/notes, the parsed
join date, and both timestamps set to the creation time. -/
theorem claim8_create_get_roundtrip (db : DB) (p : Payload) (now : Nat)
    (hval : validateStudent p = [])
    (hnodup : ∀ r ∈ db.recs, r.email ≠ normEmail p.email.asString)
    (hfresh : ∀ r ∈ db.recs, r.id ≠ db.nextId) :
    (createRecord db p now).1 = .created (buildStudent p db.nextId now) ∧
    getRecordCore (createRecord db p now).2 (buildStudent p db.nextId now).id =
      .okRecord (buildStudent p db.nextId now) ∧
    (buildStudent p db.nextId now).name = jsTrim p.name.asString ∧
    (buildStudent p db.nextId now).email = normEmail p.email.asString ∧
    (buildStudent p db.nextId now).phone = optTrim p.phone ∧
    (buildStudent p db.nextId now).course = jsTrim p.course.asString ∧
    (buildStudent p db.nextId now).feeStatus = p.feeStatus.asString ∧
    (buildStudent p db.nextId now).joinDate = jsParseDate p.joinDate ∧
    (buildStudent p db.nextId now).notes = optTrim p.notes ∧
    (buildStudent p db.nextId now).createdAt = now ∧
    (buildStudent p db.nextId now).updatedAt = now := by
  have hnone : db.recs.find?
      (fun r => r.email == (buildStudent p db.nextId now).email) = none := by
    rw [List.find?_eq_none]
    intro x hx hpx
    rw [beq_iff_eq] at hpx
    exact hnodup x hx hpx
  have hcreate : createRecord db p now =
      (.created (buildStudent p db.nextId now),
        ⟨db.recs ++ [buildStudent p db.nextId now], db.nextId + 1⟩) := by
    simp [createRecord, hval, hnone]
  refine ⟨by rw [hcreate], ?_, rfl, rfl, rfl, rfl, rfl, rfl, rfl, rfl, rfl⟩
  rw [hcreate]
  simp only [getRecordCore, List.find?_append]
  have hn1 : db.recs.find?
      (fun r => r.id == (buildStudent p db.nextId now).id) = none := by
    rw [List.find?_eq_none]
    intro x hx hpx
    rw [beq_iff_eq] at hpx
    exact hfresh x hx hpx
  rw [hn1]
  simp [List.find?]

/-- Witness for C8: creating `wPayload` in the empty state and reading the
new record back. -/
theorem claim8_create_get_roundtrip_witness :
    (createRecord ⟨[], 0⟩ wPayload 5).1 = .created (buildStudent wPayload 0 5) ∧
    getRecordCore (createRecord ⟨[], 0⟩ wPayload 5).2 (buildStudent wPayload 0 5).id =
      .okRecord (buildStudent wPayload 0 5) ∧
    (buildStudent wPayload 0 5).name = jsTrim wPayload.name.asString ∧
    (buildStudent wPayload 0 5).email = normEmail wPayload.email.asString ∧
    (buildStudent wPayload 0 5).phone = optTrim wPayload.phone ∧
    (buildStudent wPayload 0 5).course = jsTrim wPayload.course.asString ∧
    (buildStudent wPayload 0 5).feeStatus = wPayload.feeStatus.asString ∧
    (buildStudent wPayload 0 5).joinDate = jsParseDate wPayload.joinDate ∧
    (buildStudent wPayload 0 5).notes = optTrim wPayload.notes ∧
    (buildStudent wPayload 0 5).createdAt = 5 ∧
    (buildStudent wPayload 0 5).updatedAt = 5 :=
  claim8_create_get_roundtrip ⟨[], 0⟩ wPayload 5 (by decide) (by decide) (by decide)

/-- Claim C10 (implicit): in Update the email-uniqueness probe runs before
the existence check, so a well-formed id matching no record still yields
Conflict whenever the payload's normalized email is already taken by some
(necessarily other) record; 404 arises only when the email is free. -/
theorem claim10_update_conflict_precedes_notfound (db : DB) (id : String)
    (p : Payload) (now : Nat)
    (hid : isValidObjectId id = true)
    (habsent : ∀ r ∈ db.recs, r.id ≠ decodeOid id)
    (hval : validateStudent p = []) :
    ((∃ r ∈ db.recs, r.email = normEmail p.email.asString) →
        updateRecord db id p now = (.conflict, db)) ∧
    ((∀ r ∈ db.recs, r.email ≠ normEmail p.email.asString) →
        updateRecord db id p now = (.notFound, db)) := by
  constructor
  · rintro ⟨r, hr, hre⟩
    have hsome : (db.recs.find? (fun r2 =>
        r2.email == normEmail p.email.asString && r2.id != decodeOid id)).isSome := by
      rw [List.find?_isSome]
      refine ⟨r, hr, ?_⟩
      rw [Bool.and_eq_true, beq_iff_eq, bne_iff_ne]
      exact ⟨hre, habsent r hr⟩
    obtain ⟨x, hx⟩ := Option.isSome_iff_exists.mp hsome
    simp [updateRecord, hid, updateRecordCore, hval, hx]
  · intro hfree
    have hnone : db.recs.find? (fun r2 =>
        r2.email == normEmail p.email.asString && r2.id != decodeOid id) = none := by
      rw [List.find?_eq_none]
      intro x hx hpx
      rw [Bool.and_eq_true, beq_iff_eq] at hpx
      exact hfree x hx hpx.1
    have hnomatch : db.recs.any (fun x => x.id == decodeOid id) = false := by
      rw [Bool.eq_false_iff]
      intro hc
      obtain ⟨x, hx, hpx⟩ := List.any_eq_true.mp hc
      rw [beq_iff_eq] at hpx
      exact habsent x hx hpx
    have heq := updateFirst_of_absent (decodeOid id) (applyUpdate p now) db.recs habsent
    simp [updateRecord, hid, updateRecordCore, hval, hnone, hnomatch, heq]

/-- Witness for C10: a well-formed 24-hex id absent from the collection plus
an email collision yields Conflict, not NotFound. -/
theorem claim10_update_conflict_precedes_notfound_witness :
    updateRecord cexDB "aaaaaaaaaaaaaaaaaaaaaaaa" wPayloadAlice 9 =
      (.conflict, cexDB) :=
  (claim10_update_conflict_precedes_notfound cexDB "aaaaaaaaaaaaaaaaaaaaaaaa"
      wPayloadAlice 9 (by decide) (by decide) (by decide)).1
    ⟨cexStudent, by decide, by decide⟩

end StudentMgmt
